import Mathlib

/-!
Shallow embedding of `backend/ai_generator.py` (class `AIGenerator`): the
tool-calling orchestration loop `generate_response` / `_handle_tool_execution`.

Modelling conventions:
* Python exceptions are modelled with `Except String`; raising is `.error msg`.
* The remote completion endpoint (`self.client.messages.create`) is external:
  it is modelled as a function from the 0-based index of the API call to
  either an error (the exception text) or a response.  The orchestrator's
  behaviour depends only on the sequence of responses, so indexing by call
  number captures every deterministic endpoint.
* Every run returns, besides the Python return value, the list of outgoing
  API-call parameter records, in order (pure instrumentation: the list the
  program would have sent over the wire).
* A response content block is a tagged union (`text` vs `tool_use`), as in the
  anthropic SDK: a `tool_use` block has no `text` attribute, so reading
  `.text` on it raises an AttributeError, modelled by `blockTextE`.
* `tools`/`tool_manager` arguments are `Option`s; Python truthiness of a list
  (`if tools:`) is empty-or-absent = falsy, mirrored by `toolsTruthy`.
-/

/-- Tool definitions are passed through opaquely by the orchestrator (never
inspected), so a tool definition is modelled as an opaque token. -/
abbrev ToolDef := String

/-- A tool call's keyword arguments (`content_block.input`, a dict). -/
abbrev ToolInput := List (String × String)

/-- A content block of a completion response: either a text block or a
tool-use block carrying id / name / input, as in the anthropic SDK. -/
inductive ContentBlock where
  | text (s : String)
  | tool_use (id : String) (name : String) (input : ToolInput)
deriving DecidableEq, Repr

/-- One entry of the tool-results list built in `_handle_tool_execution`
(the dict `{"type": "tool_result", "tool_use_id": ..., "content": ...}`). -/
structure ToolResultMsg where
  tool_use_id : String
  content : String
deriving DecidableEq, Repr

/-- The `content` field of a message dict: the initial user query is a plain
string, an assistant message carries response content blocks, and a
tool-results user message carries tool-result dicts. -/
inductive MessageContent where
  | str (s : String)
  | blocks (bs : List ContentBlock)
  | results (rs : List ToolResultMsg)
deriving DecidableEq, Repr

/-- A message dict `{"role": ..., "content": ...}`. -/
structure Message where
  role : String
  content : MessageContent
deriving DecidableEq, Repr

/-- A completion response: stop reason plus content blocks. -/
structure MessageResponse where
  stop_reason : String
  content : List ContentBlock
deriving DecidableEq, Repr

/-- The parameters of one outgoing `messages.create` call that the claims
are about.  `tools = none` models the `"tools"` key being absent from the
params dict (`model` / `temperature` / `max_tokens` are fixed constants from
`base_params` and are never varied or read by the orchestrator, so they are
not carried). -/
structure ApiParams where
  messages : List Message
  system : String
  tools : Option (List ToolDef)
  tool_choice : Option String
deriving DecidableEq, Repr

/-- The remote completion endpoint: call number (0 = initial call) to
exception text or response. -/
abbrev Endpoint := Nat → Except String MessageResponse

/-- The tool manager: `execute_tool(name, **kwargs)` returns result text or
raises. -/
abbrev ToolManager := String → ToolInput → Except String String

/-- The `AIGenerator` state the orchestration reads: `max_tool_rounds`
(constructor default 2).  `api_key` / `model` / `base_params` constants are
immaterial to the claims. -/
structure AIGenerator where
  max_tool_rounds : Nat := 2
deriving DecidableEq, Repr

/-- The `AIGenerator.SYSTEM_PROMPT` constant.  It stands for the full static
prompt string of the source; no claim depends on its exact text, only on the
same constant being used on every call. -/
def SYSTEM_PROMPT : String :=
  "You are an AI assistant specialized in course materials and educational content with access to tools for course information."

/-- Lines 74-78: the system content is the prompt, with the history appended
when `conversation_history` is truthy (present and non-empty). -/
def buildSystemContent (conversation_history : Option String) : String :=
  match conversation_history with
  | some h =>
      if h = "" then SYSTEM_PROMPT
      else SYSTEM_PROMPT ++ "\n\nPrevious conversation:\n" ++ h
  | none => SYSTEM_PROMPT

/-- Python truthiness of the `tools` argument (`if tools:`): absent or the
empty list is falsy. -/
def toolsTruthy : Option (List ToolDef) → Bool
  | none => false
  | some ts => !ts.isEmpty

/-- Lines 81-90: the initial `api_params` dict (messages, system, and the
`tools` / `tool_choice` keys added only when `tools` is truthy). -/
def initialParams (query : String) (conversation_history : Option String)
    (tools : Option (List ToolDef)) : ApiParams :=
  { messages := [{ role := "user", content := .str query }],
    system := buildSystemContent conversation_history,
    tools := if toolsTruthy tools then tools else none,
    tool_choice := if toolsTruthy tools then some "auto" else none }

/-- Reading `.text` on a content block: a text block yields its text, a
tool-use block has no such attribute (Python AttributeError). -/
def blockTextE : ContentBlock → Except String String
  | .text s => .ok s
  | .tool_use _ _ _ => .error "AttributeError: ToolUseBlock object has no attribute text"

/-- Reading `response.content[0].text`: index error on an empty list, otherwise the
first block's text attribute. -/
def firstBlockTextE (r : MessageResponse) : Except String String :=
  match r.content with
  | [] => .error "IndexError: list index out of range"
  | b :: _ => blockTextE b

/-- Lines 148-164: execute each tool-use block of the response content in
order via `tool_manager.execute_tool`, accumulating tool-result dicts; the
first execution failure raises, tagged with the current round number, and
discards all results. -/
def execToolCalls (tm : ToolManager) (round_count : Nat) :
    List ContentBlock → Except String (List ToolResultMsg)
  | [] => .ok []
  | .text _ :: rest => execToolCalls tm round_count rest
  | .tool_use id name input :: rest =>
      match tm name input with
      | .error e =>
          .error ("Tool execution failed in round " ++ toString round_count ++ ": " ++ e)
      | .ok r =>
          match execToolCalls tm round_count rest with
          | .error e2 => .error e2
          | .ok rs => .ok ({ tool_use_id := id, content := r } :: rs)

/-- Lines 144-168 of each round: append the assistant message carrying the
response content, then, when at least one tool result was produced, the
single user message carrying all of this round's tool results. -/
def roundMessages (messages : List Message) (content : List ContentBlock)
    (tool_results : List ToolResultMsg) : List Message :=
  let messages1 := messages ++ [{ role := "assistant", content := .blocks content }]
  if tool_results.isEmpty then messages1
  else messages1 ++ [{ role := "user", content := .results tool_results }]

/-- Lines 170-177: the parameters of a continuation call — the accumulated
messages, the base system content, the tools re-attached
(`base_params.get("tools", [])`), and `tool_choice = auto`. -/
def contParams (p0 : ApiParams) (msgs : List Message) : ApiParams :=
  { messages := msgs, system := p0.system, tools := some (p0.tools.getD []),
    tool_choice := some "auto" }

/-- Lines 141-196: the `while round_count < self.max_tool_rounds` loop of
`_handle_tool_execution`, with `fuel = max_tool_rounds - round_count`
(so `fuel = 0` is exactly the exit condition).  Each iteration appends the
assistant message, executes the round's tool calls, appends the single
tool-results user message when at least one result was produced, issues the
next API call with the tools re-attached, validates it, and either returns
its first block's text (non-tool-use stop) or loops.  When fuel runs out the
last obtained response's first block text is returned (lines 194-196). -/
def toolLoop (ep : Endpoint) (tm : ToolManager) (base_params : ApiParams) :
    Nat → List Message → MessageResponse → Nat → List ApiParams →
    Except String String × List ApiParams
  | 0, _, current, _, calls => (firstBlockTextE current, calls)
  | fuel + 1, messages, current, round_count, calls =>
      let rc := round_count + 1
      match execToolCalls tm rc current.content with
      | .error e => (.error e, calls)
      | .ok tool_results =>
          let messages2 := roundMessages messages current.content tool_results
          let next_params := contParams base_params messages2
          let calls1 := calls ++ [next_params]
          match ep calls.length with
          | .error e =>
              (.error ("Anthropic API error in round " ++ toString rc ++ ": " ++ e), calls1)
          | .ok resp =>
              if resp.content.isEmpty then
                (.error ("Anthropic API returned empty response content in round "
                    ++ toString rc), calls1)
              else if resp.stop_reason ≠ "tool_use" then
                (firstBlockTextE resp, calls1)
              else
                toolLoop ep tm base_params fuel messages2 resp rc calls1

/-- Lines 109-196: `_handle_tool_execution` — copy the base messages and run
the round loop from `round_count = 0`. -/
def handle_tool_execution (gen : AIGenerator) (ep : Endpoint) (tm : ToolManager)
    (base_params : ApiParams) (initial_response : MessageResponse)
    (calls : List ApiParams) : Except String String × List ApiParams :=
  toolLoop ep tm base_params gen.max_tool_rounds base_params.messages initial_response 0 calls

/-- Lines 56-107: `generate_response`.  Build the system content and initial
params, issue the initial call (wrapping failures), validate non-empty
content, enter the tool loop when the stop reason is `tool_use` and a tool
manager is present, otherwise return the first content block's text. -/
def generate_response (gen : AIGenerator) (ep : Endpoint) (query : String)
    (conversation_history : Option String) (tools : Option (List ToolDef))
    (tool_manager : Option ToolManager) : Except String String × List ApiParams :=
  let api_params := initialParams query conversation_history tools
  match ep 0 with
  | .error e => (.error ("Anthropic API error: " ++ e), [api_params])
  | .ok response =>
      if response.content.isEmpty then
        (.error "Anthropic API returned empty response content", [api_params])
      else
        match tool_manager with
        | some tm =>
            if response.stop_reason = "tool_use" then
              handle_tool_execution gen ep tm api_params response [api_params]
            else (firstBlockTextE response, [api_params])
        | none => (firstBlockTextE response, [api_params])

/-!
## Observations and round-by-round characterisation of clean runs

`cleanMsgs` / `cleanCalls` describe the message log and the outgoing call
list after `j` completed loop rounds of a run whose responses all signal
`tool_use`, are non-empty, and whose tool executions succeed
(`CleanPrefix`).  They are proof-side specification functions; the program
itself is only `generate_response` above.
-/

/-- The tool results produced by round `i + 1` (which processes response
`resp i`), empty if execution raised. -/
def roundResults (tm : ToolManager) (resp : Nat → MessageResponse) (i : Nat) :
    List ToolResultMsg :=
  match execToolCalls tm (i + 1) (resp i).content with
  | .ok rs => rs
  | .error _ => []

/-- The message log after `j` completed rounds of the loop. -/
def cleanMsgs (p0 : ApiParams) (tm : ToolManager) (resp : Nat → MessageResponse) :
    Nat → List Message
  | 0 => p0.messages
  | j + 1 =>
      roundMessages (cleanMsgs p0 tm resp j) (resp j).content (roundResults tm resp j)

/-- The outgoing call list after `j` completed rounds: the initial call plus
one continuation call per round. -/
def cleanCalls (p0 : ApiParams) (tm : ToolManager) (resp : Nat → MessageResponse) :
    Nat → List ApiParams
  | 0 => [p0]
  | j + 1 => cleanCalls p0 tm resp j ++ [contParams p0 (cleanMsgs p0 tm resp (j + 1))]

/-- A run is clean through `j` rounds: calls `0..j` return `resp 0..j`, each
response is non-empty and stops with `tool_use`, and the tool executions of
rounds `1..j` succeed. -/
def CleanPrefix (ep : Endpoint) (tm : ToolManager) (resp : Nat → MessageResponse)
    (j : Nat) : Prop :=
  (∀ i, i ≤ j → ep i = .ok (resp i) ∧ (resp i).content ≠ []
      ∧ (resp i).stop_reason = "tool_use") ∧
  (∀ i, i < j → execToolCalls tm (i + 1) (resp i).content = .ok (roundResults tm resp i))

/-- Number of tool-results messages (tool-execution batches recorded) in a
message log. -/
def countResults (msgs : List Message) : Nat :=
  (msgs.filter (fun m => match m.content with | .results _ => true | _ => false)).length

lemma cleanCalls_length (p0 : ApiParams) (tm : ToolManager)
    (resp : Nat → MessageResponse) (j : Nat) :
    (cleanCalls p0 tm resp j).length = j + 1 := by
  induction j with
  | zero => simp [cleanCalls]
  | succ j ih => simp [cleanCalls, ih]

lemma cleanPrefix_mono (ep : Endpoint) (tm : ToolManager)
    (resp : Nat → MessageResponse) (j : Nat) (h : CleanPrefix ep tm resp (j + 1)) :
    CleanPrefix ep tm resp j :=
  ⟨fun i hi => h.1 i (Nat.le_succ_of_le hi),
   fun i hi => h.2 i (Nat.lt_succ_of_lt hi)⟩

/-- Master characterisation: a clean prefix of `j ≤ max_tool_rounds` rounds
drives the loop to the state after `j` rounds. -/
lemma toolLoop_clean (gen : AIGenerator) (ep : Endpoint) (tm : ToolManager)
    (p0 : ApiParams) (resp : Nat → MessageResponse) :
    ∀ j, j ≤ gen.max_tool_rounds → CleanPrefix ep tm resp j →
    toolLoop ep tm p0 gen.max_tool_rounds p0.messages (resp 0) 0 [p0]
      = toolLoop ep tm p0 (gen.max_tool_rounds - j) (cleanMsgs p0 tm resp j) (resp j) j
          (cleanCalls p0 tm resp j) := by
  intro j
  induction j with
  | zero => intro _ _; simp [cleanMsgs, cleanCalls]
  | succ j ih =>
      intro hj hclean
      have hj' : j ≤ gen.max_tool_rounds := Nat.le_of_succ_le hj
      rw [ih hj' (cleanPrefix_mono ep tm resp j hclean)]
      have hfuel : gen.max_tool_rounds - j = (gen.max_tool_rounds - (j + 1)) + 1 := by omega
      rw [hfuel]
      have hexec := hclean.2 j (Nat.lt_succ_self j)
      have hlen := cleanCalls_length p0 tm resp j
      have hresp := hclean.1 (j + 1) (le_refl _)
      simp only [toolLoop, hexec, hlen, hresp.1]
      have hcont : (resp (j + 1)).content.isEmpty = false := by
        cases h : (resp (j + 1)).content with
        | nil => exact absurd h hresp.2.1
        | cons a l => simp [List.isEmpty]
      simp only [hcont, hresp.2.2]
      simp [cleanMsgs, cleanCalls, contParams, roundMessages]

/-- Each loop iteration issues at most one API call. -/
lemma toolLoop_length (ep : Endpoint) (tm : ToolManager) (p0 : ApiParams) :
    ∀ fuel msgs cur rc calls,
    ((toolLoop ep tm p0 fuel msgs cur rc calls).2).length ≤ calls.length + fuel := by
  intro fuel
  induction fuel with
  | zero => intro msgs cur rc calls; simp [toolLoop]
  | succ fuel ih =>
      intro msgs cur rc calls
      simp only [toolLoop]
      cases hexec : execToolCalls tm (rc + 1) cur.content with
      | error e => simp
      | ok rs =>
          simp only []
          cases hep : ep calls.length with
          | error e => simp
          | ok resp =>
              by_cases hc : resp.content.isEmpty
              · simp [hc]
              · by_cases hs : resp.stop_reason = "tool_use"
                · simp only [hc, hs, Bool.false_eq_true, if_false, ne_eq,
                    not_true_eq_false, if_true]
                  calc ((toolLoop ep tm p0 fuel _ resp (rc + 1) _).2).length
                      ≤ (calls ++ [_]).length + fuel := ih _ _ _ _
                    _ = calls.length + (fuel + 1) := by simp; omega
                · simp [hc, hs]

/-- A tool-execution failure in the loop is always tagged with the round
number it occurred in. -/
lemma execToolCalls_error_shape (tm : ToolManager) (rc : Nat) :
    ∀ blocks m, execToolCalls tm rc blocks = .error m →
    ∃ e, m = "Tool execution failed in round " ++ toString rc ++ ": " ++ e := by
  intro blocks
  induction blocks with
  | nil => intro m h; simp [execToolCalls] at h
  | cons b rest ih =>
      intro m h
      cases b with
      | text s => exact ih m h
      | tool_use id name input =>
          simp only [execToolCalls] at h
          cases htm : tm name input with
          | error e =>
              rw [htm] at h
              exact ⟨e, by simpa using h.symm⟩
          | ok r =>
              rw [htm] at h
              cases hrec : execToolCalls tm rc rest with
              | error e2 =>
                  rw [hrec] at h
                  have he : e2 = m := by simpa using h
                  exact ih m (he ▸ hrec)
              | ok rs => rw [hrec] at h; simp at h


/-- The shape every continuation call has relative to the base params and a
message log it extends. -/
def ContShape (p0 : ApiParams) (msgs : List Message) (p : ApiParams) : Prop :=
  p.system = p0.system ∧ p.tools = some (p0.tools.getD [])
    ∧ p.tool_choice = some "auto" ∧ ∃ ms, p.messages = msgs ++ ms

lemma roundMessages_ext (msgs : List Message) (c : List ContentBlock)
    (rs : List ToolResultMsg) : ∃ seg, roundMessages msgs c rs = msgs ++ seg := by
  by_cases h : rs.isEmpty
  · exact ⟨[{ role := "assistant", content := .blocks c }], by simp [roundMessages, h]⟩
  · exact ⟨[{ role := "assistant", content := .blocks c },
      { role := "user", content := .results rs }], by simp [roundMessages, h]⟩

lemma contShape_mono (p0 : ApiParams) (msgs seg : List Message) (p : ApiParams)
    (h : ContShape p0 (msgs ++ seg) p) : ContShape p0 msgs p := by
  obtain ⟨h1, h2, h3, ms, hms⟩ := h
  exact ⟨h1, h2, h3, seg ++ ms, by simp [hms]⟩

lemma contShape_contParams (p0 : ApiParams) (msgs m2 : List Message)
    (h : ∃ seg, m2 = msgs ++ seg) : ContShape p0 msgs (contParams p0 m2) := by
  obtain ⟨seg, hseg⟩ := h
  exact ⟨rfl, rfl, rfl, seg, by simp [contParams, hseg]⟩

/-- The loop only appends to the call list, and every appended call is a
continuation call of the expected shape. -/
lemma toolLoop_calls_shape (ep : Endpoint) (tm : ToolManager) (p0 : ApiParams) :
    ∀ fuel msgs cur rc calls,
    ∃ tail, (toolLoop ep tm p0 fuel msgs cur rc calls).2 = calls ++ tail ∧
      ∀ p ∈ tail, ContShape p0 msgs p := by
  intro fuel
  induction fuel with
  | zero =>
      intro msgs cur rc calls
      exact ⟨[], by simp [toolLoop], by simp⟩
  | succ fuel ih =>
      intro msgs cur rc calls
      simp only [toolLoop]
      cases hexec : execToolCalls tm (rc + 1) cur.content with
      | error e => exact ⟨[], by simp, by simp⟩
      | ok rs =>
          simp only []
          cases hep : ep calls.length with
          | error e =>
              refine ⟨_, rfl, ?_⟩
              intro p hp
              simp only [List.mem_singleton] at hp
              subst hp
              exact contShape_contParams p0 msgs _ (roundMessages_ext msgs cur.content rs)
          | ok resp =>
              by_cases hc : resp.content.isEmpty
              · simp only [hc, if_true]
                refine ⟨_, rfl, ?_⟩
                intro p hp
                simp only [List.mem_singleton] at hp
                subst hp
                exact contShape_contParams p0 msgs _ (roundMessages_ext msgs cur.content rs)
              · by_cases hs : resp.stop_reason = "tool_use"
                · simp only [hc, hs, Bool.false_eq_true, if_false, ne_eq,
                    not_true_eq_false, if_true]
                  obtain ⟨tail, htail, hshape⟩ := ih
                    (roundMessages msgs cur.content rs) resp (rc + 1)
                    (calls ++ [contParams p0 (roundMessages msgs cur.content rs)])
                  refine ⟨contParams p0 (roundMessages msgs cur.content rs) :: tail,
                    by simpa using htail, ?_⟩
                  intro p hp
                  rcases List.mem_cons.mp hp with hp | hp
                  · subst hp
                    exact contShape_contParams p0 msgs _
                      (roundMessages_ext msgs cur.content rs)
                  · obtain ⟨seg, hseg⟩ := roundMessages_ext msgs cur.content rs
                    exact contShape_mono p0 msgs seg p (hseg ▸ hshape p hp)
                · simp only [hc, Bool.false_eq_true, if_false, ne_eq, hs,
                    not_false_eq_true, if_true]
                  refine ⟨_, rfl, ?_⟩
                  intro p hp
                  simp only [List.mem_singleton] at hp
                  subst hp
                  exact contShape_contParams p0 msgs _
                    (roundMessages_ext msgs cur.content rs)

/-- An assistant message carrying response content blocks (line 145). -/
def assistantMsg (c : List ContentBlock) : Message :=
  { role := "assistant", content := .blocks c }

/-- The single user message carrying a round's tool results (line 168). -/
def resultsMsg (rs : List ToolResultMsg) : Message :=
  { role := "user", content := .results rs }

/-- Whether a content block list contains any tool-use block. -/
def hasToolUse (c : List ContentBlock) : Bool :=
  c.any (fun b => match b with | .tool_use _ _ _ => true | _ => false)

lemma isEmpty_false_of_ne_nil {α : Type} {l : List α} (h : l ≠ []) :
    l.isEmpty = false := by
  cases l with
  | nil => exact absurd rfl h
  | cons a l => rfl

/-- With no tool-use blocks, a round executes nothing and produces no
results. -/
lemma execToolCalls_no_tools (tm : ToolManager) (rc : Nat) :
    ∀ c, hasToolUse c = false → execToolCalls tm rc c = .ok [] := by
  intro c
  induction c with
  | nil => intro _; rfl
  | cons b rest ih =>
      intro h
      cases b with
      | text s => exact ih (by simpa [hasToolUse] using h)
      | tool_use id name input => simp [hasToolUse] at h

/-- Entering the tool round loop: initial response obtained, non-empty,
`tool_use` stop, tool manager present. -/
lemma generate_response_loop (gen : AIGenerator) (ep : Endpoint) (q : String)
    (h : Option String) (t : Option (List ToolDef)) (tm : ToolManager)
    (resp0 : MessageResponse) (hep : ep 0 = .ok resp0)
    (hne : resp0.content ≠ []) (hstop : resp0.stop_reason = "tool_use") :
    generate_response gen ep q h t (some tm)
      = toolLoop ep tm (initialParams q h t) gen.max_tool_rounds
          (initialParams q h t).messages resp0 0 [initialParams q h t] := by
  simp [generate_response, hep, isEmpty_false_of_ne_nil hne, hstop,
    handle_tool_execution]

/-- A run whose responses are all clean `tool_use` responses through the
whole round budget returns the first block text of the last response, with
the call list `cleanCalls`. -/
lemma generate_response_clean (gen : AIGenerator) (ep : Endpoint) (q : String)
    (h : Option String) (t : Option (List ToolDef)) (tm : ToolManager)
    (resp : Nat → MessageResponse)
    (hclean : CleanPrefix ep tm resp gen.max_tool_rounds) :
    generate_response gen ep q h t (some tm)
      = (firstBlockTextE (resp gen.max_tool_rounds),
         cleanCalls (initialParams q h t) tm resp gen.max_tool_rounds) := by
  have h0 := hclean.1 0 (Nat.zero_le _)
  rw [generate_response_loop gen ep q h t tm (resp 0) h0.1 h0.2.1 h0.2.2]
  rw [toolLoop_clean gen ep tm (initialParams q h t) resp gen.max_tool_rounds
    (le_refl _) hclean]
  simp [toolLoop]

lemma countResults_roundMessages (msgs : List Message) (c : List ContentBlock)
    (rs : List ToolResultMsg) :
    countResults (roundMessages msgs c rs)
      = countResults msgs + (if rs.isEmpty then 0 else 1) := by
  by_cases h : rs.isEmpty <;>
    simp [roundMessages, countResults, h, List.filter_append]

/-- When every round produced at least one tool result, the log after `j`
rounds records exactly `j` tool-results messages more than the initial
log. -/
lemma countResults_cleanMsgs (p0 : ApiParams) (tm : ToolManager)
    (resp : Nat → MessageResponse) :
    ∀ j, (∀ i, i < j → roundResults tm resp i ≠ []) →
    countResults (cleanMsgs p0 tm resp j) = countResults p0.messages + j := by
  intro j
  induction j with
  | zero => intro _; simp [cleanMsgs]
  | succ j ih =>
      intro hall
      have hj := ih (fun i hi => hall i (Nat.lt_succ_of_lt hi))
      have hne : (roundResults tm resp j).isEmpty = false :=
        isEmpty_false_of_ne_nil (hall j (Nat.lt_succ_self j))
      simp [cleanMsgs, countResults_roundMessages, hj, hne]
      omega

/-- One loop round with successful tool execution always issues exactly one
continuation call, whatever happens afterwards. -/
lemma toolLoop_one_round_call (ep : Endpoint) (tm : ToolManager) (p0 : ApiParams)
    (fuel : Nat) (msgs : List Message) (cur : MessageResponse) (rc : Nat)
    (calls : List ApiParams) (rs : List ToolResultMsg)
    (hexec : execToolCalls tm (rc + 1) cur.content = .ok rs) :
    ∃ tail, (toolLoop ep tm p0 (fuel + 1) msgs cur rc calls).2
      = (calls ++ [contParams p0 (roundMessages msgs cur.content rs)]) ++ tail := by
  simp only [toolLoop, hexec]
  cases hep : ep calls.length with
  | error e => exact ⟨[], by simp⟩
  | ok resp =>
      by_cases hc : resp.content.isEmpty
      · exact ⟨[], by simp [hc]⟩
      · by_cases hs : resp.stop_reason = "tool_use"
        · simp only [hc, hs, Bool.false_eq_true, if_false, ne_eq,
            not_true_eq_false, if_true]
          obtain ⟨tail, htail, _⟩ := toolLoop_calls_shape ep tm p0 fuel
            (roundMessages msgs cur.content rs) resp (rc + 1)
            (calls ++ [contParams p0 (roundMessages msgs cur.content rs)])
          exact ⟨tail, htail⟩
        · simp only [hc, Bool.false_eq_true, if_false, ne_eq, hs,
            not_false_eq_true, if_true]
          exact ⟨[], by simp⟩

/-!
## Claim theorems
-/

/-- C1: For every run of `generate_response` — whatever the endpoint, tool
manager, query, history and tools — the total number of completion calls is
at most `max_tool_rounds + 1` (one initial call plus at most
`max_tool_rounds` continuation calls inside the loop), no matter how many
consecutive `tool_use` responses the endpoint returns. -/
theorem claim_C1_round_budget (gen : AIGenerator) (ep : Endpoint) (q : String)
    (h : Option String) (t : Option (List ToolDef)) (tmo : Option ToolManager) :
    ((generate_response gen ep q h t tmo).2).length ≤ gen.max_tool_rounds + 1 := by
  cases hep : ep 0 with
  | error e => simp [generate_response, hep]
  | ok response =>
      by_cases hc : response.content.isEmpty
      · simp [generate_response, hep, hc]
      · cases tmo with
        | none => simp [generate_response, hep, hc]
        | some tm =>
            by_cases hs : response.stop_reason = "tool_use"
            · have hb := toolLoop_length ep tm (initialParams q h t)
                gen.max_tool_rounds (initialParams q h t).messages response 0
                [initialParams q h t]
              simp only [generate_response, hep, hc, hs, handle_tool_execution]
              simp only [List.length_singleton] at hb
              simpa [Nat.add_comm] using hb
            · simp [generate_response, hep, hc, hs]

/-- C3: With no tools and no tool manager, exactly one completion call is
made (whatever the endpoint does), and when the response's first content
block is a text block — as all responses to tool-less requests are — its
text is returned unchanged. -/
theorem claim_C3_no_tools_single_call (gen : AIGenerator) (ep : Endpoint)
    (q : String) (h : Option String) :
    (generate_response gen ep q h none none).2 = [initialParams q h none] ∧
    (∀ r s rest, ep 0 = Except.ok r → r.content = ContentBlock.text s :: rest →
      (generate_response gen ep q h none none).1 = Except.ok s) := by
  constructor
  · cases hep : ep 0 with
    | error e => simp [generate_response, hep]
    | ok response =>
        by_cases hc : response.content.isEmpty <;>
          simp [generate_response, hep, hc]
  · intro r s rest hep hcont
    simp [generate_response, hep, hcont, firstBlockTextE, blockTextE]

/-- Stub endpoint of the spec's no-tools example. -/
def c3ep : Endpoint := fun _ =>
  .ok { stop_reason := "end_turn", content := [.text "This is a test response."] }

theorem claim_C3_witness :
    (generate_response ⟨2⟩ c3ep "What is Python?" none none none).2
        = [initialParams "What is Python?" none none] ∧
    (generate_response ⟨2⟩ c3ep "What is Python?" none none none).1
        = Except.ok "This is a test response." := by
  obtain ⟨h1, h2⟩ := claim_C3_no_tools_single_call ⟨2⟩ c3ep "What is Python?" none
  exact ⟨h1, h2 _ "This is a test response." [] rfl rfl⟩

/-- Endpoint whose (tool_use-stopped) response starts with a tool-use block
and carries no text block — the common shape of a real tool-use response. -/
def c4ep : Endpoint := fun _ =>
  .ok { stop_reason := "tool_use",
        content := [.tool_use "toolu_1" "search_course_content" [("query", "X")]] }

/-- C4 counterexample: when the model signals `tool_use`, no tool manager is
supplied, and the first content block is a tool-use block (no text block
exists), `generate_response` does not return any text verbatim: reading
`.text` off the first block raises, contradicting the claim that no error is
raised. -/
theorem claim_C4_counterexample :
    (generate_response ⟨2⟩ c4ep "q" none (some ["search_course_content"]) none).1
      = Except.error "AttributeError: ToolUseBlock object has no attribute text" := by
  rfl

/-- C4 amended: with `tool_use` stop and no tool manager, no tool is executed
and exactly one call is made; the text of the FIRST CONTENT BLOCK is returned
verbatim provided that block is a text block (otherwise the attribute access
raises, as the counterexample shows). -/
theorem claim_C4_amended (gen : AIGenerator) (ep : Endpoint) (q : String)
    (h : Option String) (t : Option (List ToolDef)) (r : MessageResponse)
    (s : String) (rest : List ContentBlock) (hep : ep 0 = Except.ok r)
    (hstop : r.stop_reason = "tool_use")
    (hcont : r.content = ContentBlock.text s :: rest) :
    generate_response gen ep q h t none = (Except.ok s, [initialParams q h t]) := by
  simp [generate_response, hep, hcont, firstBlockTextE, blockTextE]

/-- Endpoint whose tool-use response has a leading text block. -/
def c4ep2 : Endpoint := fun _ =>
  .ok { stop_reason := "tool_use",
        content := [.text "I will search.",
          .tool_use "toolu_1" "search_course_content" [("query", "X")]] }

theorem claim_C4_amended_witness :
    generate_response ⟨2⟩ c4ep2 "q" none (some ["search_course_content"]) none
      = (Except.ok "I will search.",
         [initialParams "q" none (some ["search_course_content"])]) :=
  claim_C4_amended ⟨2⟩ c4ep2 "q" none (some ["search_course_content"]) _
    "I will search." [.tool_use "toolu_1" "search_course_content" [("query", "X")]]
    rfl rfl rfl

/-- C5: if tool execution raises during round `k + 1` (rounds counted from
1) of a run that was clean through the first `k` rounds, the orchestration
returns that error — which is always tagged with the round number `k + 1` —
and makes no further completion calls (the total call count stays at
`k + 1`: the initial call plus the `k` continuation calls already made). -/
theorem claim_C5_tool_error_aborts (gen : AIGenerator) (ep : Endpoint)
    (tm : ToolManager) (q : String) (h : Option String)
    (t : Option (List ToolDef)) (resp : Nat → MessageResponse) (k : Nat)
    (m : String) (hk : k + 1 ≤ gen.max_tool_rounds)
    (hclean : CleanPrefix ep tm resp k)
    (hfail : execToolCalls tm (k + 1) (resp k).content = Except.error m) :
    generate_response gen ep q h t (some tm)
        = (Except.error m, cleanCalls (initialParams q h t) tm resp k)
      ∧ (∃ e, m = "Tool execution failed in round " ++ toString (k + 1) ++ ": " ++ e)
      ∧ ((generate_response gen ep q h t (some tm)).2).length = k + 1 := by
  have h0 := hclean.1 0 (Nat.zero_le _)
  have hfuel : gen.max_tool_rounds - k = (gen.max_tool_rounds - (k + 1)) + 1 := by
    omega
  have hmain : generate_response gen ep q h t (some tm)
      = (Except.error m, cleanCalls (initialParams q h t) tm resp k) := by
    rw [generate_response_loop gen ep q h t tm (resp 0) h0.1 h0.2.1 h0.2.2,
      toolLoop_clean gen ep tm (initialParams q h t) resp k (Nat.le_of_succ_le hk)
        hclean, hfuel]
    simp only [toolLoop, hfail]
  refine ⟨hmain, execToolCalls_error_shape tm (k + 1) _ m hfail, ?_⟩
  rw [hmain]
  simp [cleanCalls_length]

/-- A typical tool-use response: one tool-call request block. -/
def toolUseResp : MessageResponse :=
  { stop_reason := "tool_use",
    content := [.tool_use "toolu_1" "search_course_content" [("query", "X")]] }

/-- Concrete round-1 tool failure: the response requests a tool whose
execution raises. -/
def c5ep : Endpoint := fun _ => .ok toolUseResp

def c5tm : ToolManager := fun _ _ => .error "boom"

theorem claim_C5_witness :
    generate_response ⟨2⟩ c5ep "q" none (some ["search_course_content"]) (some c5tm)
        = (Except.error "Tool execution failed in round 1: boom",
           cleanCalls (initialParams "q" none (some ["search_course_content"]))
             c5tm (fun _ => toolUseResp) 0)
      ∧ ((generate_response ⟨2⟩ c5ep "q" none (some ["search_course_content"])
          (some c5tm)).2).length = 1 := by
  have hne : toolUseResp.content ≠ [] := by decide
  obtain ⟨h1, _, h3⟩ := claim_C5_tool_error_aborts ⟨2⟩ c5ep c5tm "q" none
    (some ["search_course_content"])
    (fun _ => toolUseResp)
    0 "Tool execution failed in round 1: boom" (by decide)
    ⟨fun i _ => ⟨rfl, hne, rfl⟩, fun i hi => absurd hi (Nat.not_lt_zero i)⟩ rfl
  exact ⟨h1, h3⟩

/-- C6: remote completion-call failures are fatal on every call.  An initial
call failure is wrapped as an Anthropic API error and re-raised, with only
the one call recorded; a continuation-call failure in round `k + 1` is
wrapped with the round number and re-raised, with no partial result in
either case. -/
theorem claim_C6_api_errors_fatal :
    (∀ (gen : AIGenerator) (ep : Endpoint) (q : String) (h : Option String)
        (t : Option (List ToolDef)) (tmo : Option ToolManager) (e : String),
      ep 0 = Except.error e →
      generate_response gen ep q h t tmo
        = (Except.error ("Anthropic API error: " ++ e), [initialParams q h t]))
    ∧
    (∀ (gen : AIGenerator) (ep : Endpoint) (tm : ToolManager) (q : String)
        (h : Option String) (t : Option (List ToolDef))
        (resp : Nat → MessageResponse) (k : Nat) (e : String),
      k + 1 ≤ gen.max_tool_rounds →
      CleanPrefix ep tm resp k →
      execToolCalls tm (k + 1) (resp k).content
        = Except.ok (roundResults tm resp k) →
      ep (k + 1) = Except.error e →
      generate_response gen ep q h t (some tm)
        = (Except.error ("Anthropic API error in round " ++ toString (k + 1)
              ++ ": " ++ e),
           cleanCalls (initialParams q h t) tm resp (k + 1))) := by
  constructor
  · intro gen ep q h t tmo e hep
    simp [generate_response, hep]
  · intro gen ep tm q h t resp k e hk hclean hexec hepe
    have h0 := hclean.1 0 (Nat.zero_le _)
    have hfuel : gen.max_tool_rounds - k = (gen.max_tool_rounds - (k + 1)) + 1 := by
      omega
    rw [generate_response_loop gen ep q h t tm (resp 0) h0.1 h0.2.1 h0.2.2,
      toolLoop_clean gen ep tm (initialParams q h t) resp k (Nat.le_of_succ_le hk)
        hclean, hfuel]
    simp only [toolLoop, hexec, cleanCalls_length, hepe]
    simp [cleanCalls, cleanMsgs]

/-- Concrete instances for both parts of C6: an initial-call failure, and a
round-1 continuation-call failure after a successful tool round. -/
def c6ep1 : Endpoint := fun _ => .error "auth failed"

def c6ep2 : Endpoint := fun n =>
  if n = 0 then .ok toolUseResp else .error "rate limited"

def c6tm : ToolManager := fun _ _ => .ok "result text"

theorem claim_C6_witness :
    generate_response ⟨2⟩ c6ep1 "q" none none none
        = (Except.error "Anthropic API error: auth failed",
           [initialParams "q" none none])
      ∧ generate_response ⟨2⟩ c6ep2 "q" none (some ["search_course_content"])
          (some c6tm)
        = (Except.error "Anthropic API error in round 1: rate limited",
           cleanCalls (initialParams "q" none (some ["search_course_content"]))
             c6tm (fun _ => toolUseResp) 1) := by
  refine ⟨claim_C6_api_errors_fatal.1 ⟨2⟩ c6ep1 "q" none none none "auth failed" rfl,
    claim_C6_api_errors_fatal.2 ⟨2⟩ c6ep2 c6tm "q" none
      (some ["search_course_content"])
      (fun _ => toolUseResp)
      0 "rate limited" (by decide)
      ⟨fun i hi => ?_, fun i hi => absurd hi (Nat.not_lt_zero i)⟩ rfl rfl⟩
  interval_cases i
  exact ⟨rfl, by decide, rfl⟩

/-- C7: an empty-content continuation response in round `k + 1` is a fatal
protocol error tagged with the round number; no text is returned. -/
theorem claim_C7_empty_content_fatal (gen : AIGenerator) (ep : Endpoint)
    (tm : ToolManager) (q : String) (h : Option String)
    (t : Option (List ToolDef)) (resp : Nat → MessageResponse) (k : Nat)
    (rE : MessageResponse) (hk : k + 1 ≤ gen.max_tool_rounds)
    (hclean : CleanPrefix ep tm resp k)
    (hexec : execToolCalls tm (k + 1) (resp k).content
      = Except.ok (roundResults tm resp k))
    (hepe : ep (k + 1) = Except.ok rE) (hE : rE.content = []) :
    generate_response gen ep q h t (some tm)
      = (Except.error ("Anthropic API returned empty response content in round "
            ++ toString (k + 1)),
         cleanCalls (initialParams q h t) tm resp (k + 1)) := by
  have h0 := hclean.1 0 (Nat.zero_le _)
  have hfuel : gen.max_tool_rounds - k = (gen.max_tool_rounds - (k + 1)) + 1 := by
    omega
  rw [generate_response_loop gen ep q h t tm (resp 0) h0.1 h0.2.1 h0.2.2,
    toolLoop_clean gen ep tm (initialParams q h t) resp k (Nat.le_of_succ_le hk)
      hclean, hfuel]
  simp only [toolLoop, hexec, cleanCalls_length, hepe, hE]
  simp [cleanCalls, cleanMsgs]

def c7ep : Endpoint := fun n =>
  if n = 0 then .ok toolUseResp
  else .ok { stop_reason := "end_turn", content := [] }

theorem claim_C7_witness :
    generate_response ⟨2⟩ c7ep "q" none (some ["search_course_content"])
        (some c6tm)
      = (Except.error "Anthropic API returned empty response content in round 1",
         cleanCalls (initialParams "q" none (some ["search_course_content"]))
           c6tm (fun _ => toolUseResp) 1) := by
  have := claim_C7_empty_content_fatal ⟨2⟩ c7ep c6tm "q" none
    (some ["search_course_content"])
    (fun _ => toolUseResp)
    0 { stop_reason := "end_turn", content := [] } (by decide)
    ⟨fun i hi => ?_, fun i hi => absurd hi (Nat.not_lt_zero i)⟩ rfl rfl rfl
  · exact this
  · interval_cases i
    exact ⟨rfl, by decide, rfl⟩

lemma cleanCalls_getLastD_messages (p0 : ApiParams) (tm : ToolManager)
    (resp : Nat → MessageResponse) (d : ApiParams) :
    ∀ j, ((cleanCalls p0 tm resp j).getLastD d).messages
      = cleanMsgs p0 tm resp j := by
  intro j
  cases j with
  | zero => rfl
  | succ j => simp [cleanCalls, contParams, cleanMsgs]

/-- C2: when the initial response and every continuation response are
non-empty `tool_use` responses and every round's tool execution succeeds and
yields at least one result, the orchestrator makes exactly `max_tool_rounds`
continuation calls (total `max_tool_rounds + 1` calls, no forced extra
call), records exactly `max_tool_rounds` tool-results batches in the final
message log, and returns the text attribute of the first content block of
the last obtained response. -/
theorem claim_C2_budget_exhaustion (gen : AIGenerator) (ep : Endpoint)
    (tm : ToolManager) (q : String) (h : Option String)
    (t : Option (List ToolDef)) (resp : Nat → MessageResponse)
    (hclean : CleanPrefix ep tm resp gen.max_tool_rounds)
    (hbatch : ∀ i, i < gen.max_tool_rounds → roundResults tm resp i ≠ []) :
    generate_response gen ep q h t (some tm)
        = (firstBlockTextE (resp gen.max_tool_rounds),
           cleanCalls (initialParams q h t) tm resp gen.max_tool_rounds)
      ∧ ((generate_response gen ep q h t (some tm)).2).length
          = gen.max_tool_rounds + 1
      ∧ countResults ((((generate_response gen ep q h t (some tm)).2).getLastD
            (initialParams q h t)).messages) = gen.max_tool_rounds := by
  have hmain := generate_response_clean gen ep q h t tm resp hclean
  refine ⟨hmain, by rw [hmain]; simp [cleanCalls_length], ?_⟩
  rw [hmain]
  simp only [cleanCalls_getLastD_messages]
  rw [countResults_cleanMsgs (initialParams q h t) tm resp gen.max_tool_rounds hbatch]
  simp [countResults, initialParams]

/-- Stub endpoint that always answers `tool_use`, with per-call distinct
leading text blocks. -/
def c2ep : Endpoint := fun n =>
  .ok { stop_reason := "tool_use",
        content := [.text ("thinking " ++ toString n),
          .tool_use ("toolu_" ++ toString n) "search_course_content"
            [("query", "X")]] }

def c2resp (n : Nat) : MessageResponse :=
  { stop_reason := "tool_use",
    content := [.text ("thinking " ++ toString n),
      .tool_use ("toolu_" ++ toString n) "search_course_content"
        [("query", "X")]] }

theorem claim_C2_witness :
    (generate_response ⟨2⟩ c2ep "q" none (some ["search_course_content"])
        (some c6tm)).1 = Except.ok "thinking 2"
      ∧ ((generate_response ⟨2⟩ c2ep "q" none (some ["search_course_content"])
          (some c6tm)).2).length = 3
      ∧ countResults ((((generate_response ⟨2⟩ c2ep "q" none
            (some ["search_course_content"]) (some c6tm)).2).getLastD
            (initialParams "q" none (some ["search_course_content"]))).messages)
          = 2 := by
  have hcp : CleanPrefix c2ep c6tm c2resp 2 :=
    ⟨fun i hi => ⟨rfl, by simp [c2resp], rfl⟩,
     fun i hi => by interval_cases i <;> rfl⟩
  have hb : ∀ i, i < 2 → roundResults c6tm c2resp i ≠ [] := by
    intro i hi
    interval_cases i <;> decide
  obtain ⟨h1, h2, h3⟩ := claim_C2_budget_exhaustion ⟨2⟩ c2ep c6tm "q" none
    (some ["search_course_content"]) c2resp hcp hb
  refine ⟨?_, h2, h3⟩
  rw [h1]
  rfl

/-- C8: whenever tools were supplied (non-empty `tools` argument), every
continuation call of the run — whatever the endpoint and tool manager do —
carries the same tool definitions array as the initial call, `tool_choice =
auto`, the same system content, and a message log extending the initial
call's messages. -/
theorem claim_C8_tools_reoffered (gen : AIGenerator) (ep : Endpoint)
    (q : String) (h : Option String) (ts : List ToolDef)
    (tmo : Option ToolManager) (hts : ts ≠ []) :
    ∀ p ∈ ((generate_response gen ep q h (some ts) tmo).2).drop 1,
      p.tools = some ts ∧ p.tool_choice = some "auto"
        ∧ p.system = (initialParams q h (some ts)).system
        ∧ ∃ ms, p.messages = (initialParams q h (some ts)).messages ++ ms := by
  have htools : (initialParams q h (some ts)).tools = some ts := by
    simp [initialParams, toolsTruthy, isEmpty_false_of_ne_nil hts]
  cases hep : ep 0 with
  | error e => simp [generate_response, hep]
  | ok response =>
      by_cases hc : response.content.isEmpty
      · simp [generate_response, hep, hc]
      · cases tmo with
        | none => simp [generate_response, hep, hc]
        | some tm =>
            by_cases hs : response.stop_reason = "tool_use"
            · have hne : response.content ≠ [] := by
                intro hnil
                rw [hnil] at hc
                exact hc rfl
              have hrun := generate_response_loop gen ep q h (some ts) tm
                response hep hne hs
              obtain ⟨tail, htail, hshape⟩ := toolLoop_calls_shape ep tm
                (initialParams q h (some ts)) gen.max_tool_rounds
                (initialParams q h (some ts)).messages response 0
                [initialParams q h (some ts)]
              intro p hp
              rw [hrun, htail] at hp
              simp only [List.singleton_append, List.drop_succ_cons,
                List.drop_zero] at hp
              obtain ⟨h1, h2, h3, ms, hms⟩ := hshape p hp
              refine ⟨?_, h3, h1, ms, hms⟩
              rw [h2, htools]
              rfl
            · simp [generate_response, hep, hc, hs]

theorem claim_C8_witness :
    ((((generate_response ⟨2⟩ c2ep "q" none (some ["search_course_content"])
          (some c6tm)).2).getLastD
        (initialParams "q" none (some ["search_course_content"]))).tools
      = some ["search_course_content"])
    ∧ ((((generate_response ⟨2⟩ c2ep "q" none (some ["search_course_content"])
          (some c6tm)).2).getLastD
        (initialParams "q" none (some ["search_course_content"]))).tool_choice
      = some "auto") := by
  have hm : (((generate_response ⟨2⟩ c2ep "q" none
        (some ["search_course_content"]) (some c6tm)).2).getLastD
        (initialParams "q" none (some ["search_course_content"])))
      ∈ ((generate_response ⟨2⟩ c2ep "q" none (some ["search_course_content"])
        (some c6tm)).2).drop 1 := by decide
  obtain ⟨h1, h2, _, _⟩ := claim_C8_tools_reoffered ⟨2⟩ c2ep "q" none
    ["search_course_content"] (some c6tm) (by decide) _ hm
  exact ⟨h1, h2⟩

/-- Does the message carry assistant content blocks? -/
def isBlocksMsg (m : Message) : Bool :=
  match m.content with | .blocks _ => true | _ => false

/-- Is the message a tool-results user message? -/
def isResultsMsg (m : Message) : Bool :=
  m.role == "user" && (match m.content with | .results _ => true | _ => false)

/-- Strict alternation of assistant-with-content-blocks and tool-results
messages: the list is a sequence of (assistant message, tool-results
message) pairs. -/
def altAR : List Message → Bool
  | [] => true
  | a :: r :: rest => (a.role == "assistant") && isBlocksMsg a && isResultsMsg r && altAR rest
  | _ => false

theorem altAR_append_pair (a r : Message) (hpair : altAR [a, r] = true) :
    ∀ l, altAR l = true → altAR (l ++ [a, r]) = true
  | [], _ => hpair
  | [x], hx => by simp [altAR] at hx
  | x :: y :: rest, hxy => by
      simp only [altAR, Bool.and_eq_true] at hxy
      have hrest := altAR_append_pair a r hpair rest hxy.2
      simp only [List.cons_append, altAR, Bool.and_eq_true]
      exact ⟨hxy.1, hrest⟩

/-- When every round batched at least one tool result, the accumulated log
is the initial messages followed by strictly alternating
assistant/tool-results pairs. -/
lemma cleanMsgs_struct (p0 : ApiParams) (tm : ToolManager)
    (resp : Nat → MessageResponse) :
    ∀ j, (∀ i, i < j → roundResults tm resp i ≠ []) →
    ∃ seg, cleanMsgs p0 tm resp j = p0.messages ++ seg ∧ altAR seg = true := by
  intro j
  induction j with
  | zero => exact fun _ => ⟨[], by simp [cleanMsgs], rfl⟩
  | succ j ih =>
      intro hall
      obtain ⟨seg, hseg, halt⟩ := ih (fun i hi => hall i (Nat.lt_succ_of_lt hi))
      have hne := isEmpty_false_of_ne_nil (hall j (Nat.lt_succ_self j))
      refine ⟨seg ++ [assistantMsg (resp j).content,
        resultsMsg (roundResults tm resp j)], ?_, ?_⟩
      · simp [cleanMsgs, roundMessages, hne, hseg, assistantMsg, resultsMsg]
      · exact altAR_append_pair _ _
          (by simp [altAR, assistantMsg, resultsMsg, isBlocksMsg, isResultsMsg])
          seg halt

/-- Degenerate endpoint: two consecutive `tool_use`-stopped responses with
no tool-use blocks, then a terminal response. -/
def c9resp (n : Nat) : MessageResponse :=
  if n < 2 then { stop_reason := "tool_use", content := [.text "no tool call"] }
  else { stop_reason := "end_turn", content := [.text "final"] }

def c9ep : Endpoint := fun n => .ok (c9resp n)

/-- C9 counterexample: in the run against `c9ep` the last continuation
call's accumulated log is user query, assistant, assistant — two consecutive
assistant messages, so the log does not strictly alternate
assistant-with-tool-calls and tool-results messages. -/
theorem claim_C9_counterexample :
    ((((generate_response ⟨2⟩ c9ep "q" none (some ["toolA"])
          (some c6tm)).2).getLastD
        (initialParams "q" none (some ["toolA"]))).messages
      = [{ role := "user", content := .str "q" },
         { role := "assistant", content := .blocks [.text "no tool call"] },
         { role := "assistant", content := .blocks [.text "no tool call"] }])
    ∧ altAR (((((generate_response ⟨2⟩ c9ep "q" none (some ["toolA"])
          (some c6tm)).2).getLastD
        (initialParams "q" none (some ["toolA"]))).messages).drop 1) = false := by
  exact ⟨by decide, by decide⟩

/-- C9 amended: each clean round appends the assistant message and then —
exactly when at least one tool call was executed — one user message holding
all of that round's tool results; provided every round executed at least one
tool call, the accumulated log after the initial user message strictly
alternates assistant and tool-results messages. -/
theorem claim_C9_amended (gen : AIGenerator) (ep : Endpoint) (tm : ToolManager)
    (q : String) (h : Option String) (t : Option (List ToolDef))
    (resp : Nat → MessageResponse) (j : Nat) (hj : j ≤ gen.max_tool_rounds)
    (hclean : CleanPrefix ep tm resp j)
    (hbatch : ∀ i, i < j → roundResults tm resp i ≠ []) :
    (∀ i, i < j → cleanMsgs (initialParams q h t) tm resp (i + 1)
        = cleanMsgs (initialParams q h t) tm resp i
          ++ [assistantMsg (resp i).content, resultsMsg (roundResults tm resp i)])
    ∧ (∃ tail, (generate_response gen ep q h t (some tm)).2
        = cleanCalls (initialParams q h t) tm resp j ++ tail)
    ∧ altAR ((cleanMsgs (initialParams q h t) tm resp j).drop 1) = true := by
  refine ⟨?_, ?_, ?_⟩
  · intro i hi
    have hne := isEmpty_false_of_ne_nil (hbatch i hi)
    simp [cleanMsgs, roundMessages, hne, assistantMsg, resultsMsg]
  · have h0 := hclean.1 0 (Nat.zero_le _)
    rw [generate_response_loop gen ep q h t tm (resp 0) h0.1 h0.2.1 h0.2.2,
      toolLoop_clean gen ep tm (initialParams q h t) resp j hj hclean]
    obtain ⟨tail, htail, _⟩ := toolLoop_calls_shape ep tm (initialParams q h t)
      (gen.max_tool_rounds - j) (cleanMsgs (initialParams q h t) tm resp j)
      (resp j) j (cleanCalls (initialParams q h t) tm resp j)
    exact ⟨tail, htail⟩
  · obtain ⟨seg, hseg, halt⟩ := cleanMsgs_struct (initialParams q h t) tm resp j hbatch
    rw [hseg]
    simpa [initialParams] using halt

theorem claim_C9_amended_witness :
    (cleanMsgs (initialParams "q" none (some ["search_course_content"])) c6tm c2resp 1
        = cleanMsgs (initialParams "q" none (some ["search_course_content"])) c6tm
            c2resp 0
          ++ [assistantMsg (c2resp 0).content, resultsMsg (roundResults c6tm c2resp 0)])
    ∧ (∃ tail, (generate_response ⟨2⟩ c2ep "q" none (some ["search_course_content"])
          (some c6tm)).2
        = cleanCalls (initialParams "q" none (some ["search_course_content"])) c6tm
            c2resp 2 ++ tail)
    ∧ altAR ((cleanMsgs (initialParams "q" none (some ["search_course_content"]))
        c6tm c2resp 2).drop 1) = true := by
  have hcp : CleanPrefix c2ep c6tm c2resp 2 :=
    ⟨fun i hi => ⟨rfl, by simp [c2resp], rfl⟩,
     fun i hi => by interval_cases i <;> rfl⟩
  have hb : ∀ i, i < 2 → roundResults c6tm c2resp i ≠ [] := by
    intro i hi
    interval_cases i <;> decide
  obtain ⟨h1, h2, h3⟩ := claim_C9_amended ⟨2⟩ c2ep c6tm "q" none
    (some ["search_course_content"]) c2resp 2 (by decide) hcp hb
  exact ⟨h1 0 (by decide), h2, h3⟩

/-- C10: a `tool_use`-stopped response with zero tool-use blocks still
consumes a round when a tool manager is present: the assistant message is
appended, no tool-results message is appended, and a continuation call is
issued (first part); with two such responses in a row the continuation
call of round 2 carries two consecutive assistant messages in its log
(second part). -/
theorem claim_C10_degenerate_round :
    (∀ (gen : AIGenerator) (ep : Endpoint) (tm : ToolManager) (q : String)
        (h : Option String) (t : Option (List ToolDef)) (resp0 : MessageResponse),
      1 ≤ gen.max_tool_rounds → ep 0 = Except.ok resp0 → resp0.content ≠ [] →
      resp0.stop_reason = "tool_use" → hasToolUse resp0.content = false →
      ((generate_response gen ep q h t (some tm)).2).get? 1
        = some (contParams (initialParams q h t)
            ((initialParams q h t).messages ++ [assistantMsg resp0.content])))
    ∧
    (∀ (gen : AIGenerator) (ep : Endpoint) (tm : ToolManager) (q : String)
        (h : Option String) (t : Option (List ToolDef))
        (resp : Nat → MessageResponse),
      2 ≤ gen.max_tool_rounds → CleanPrefix ep tm resp 1 →
      hasToolUse (resp 0).content = false → hasToolUse (resp 1).content = false →
      ((generate_response gen ep q h t (some tm)).2).get? 2
        = some (contParams (initialParams q h t)
            ((initialParams q h t).messages
              ++ [assistantMsg (resp 0).content, assistantMsg (resp 1).content]))) := by
  constructor
  · intro gen ep tm q h t resp0 hmax hep hne hstop hno
    have hexec := execToolCalls_no_tools tm 1 resp0.content hno
    rw [generate_response_loop gen ep q h t tm resp0 hep hne hstop]
    have hfuel : gen.max_tool_rounds = (gen.max_tool_rounds - 1) + 1 := by omega
    rw [hfuel]
    obtain ⟨tail, htail⟩ := toolLoop_one_round_call ep tm (initialParams q h t)
      (gen.max_tool_rounds - 1) (initialParams q h t).messages resp0 0
      [initialParams q h t] [] hexec
    rw [htail]
    rw [List.get?_append (by simp)]
    simp [roundMessages, assistantMsg]
  · intro gen ep tm q h t resp hmax hclean hno0 hno1
    have h0 := hclean.1 0 (Nat.zero_le _)
    rw [generate_response_loop gen ep q h t tm (resp 0) h0.1 h0.2.1 h0.2.2,
      toolLoop_clean gen ep tm (initialParams q h t) resp 1 (by omega) hclean]
    have hfuel : gen.max_tool_rounds - 1 = (gen.max_tool_rounds - 2) + 1 := by
      omega
    rw [hfuel]
    have hexec2 := execToolCalls_no_tools tm 2 (resp 1).content hno1
    obtain ⟨tail, htail⟩ := toolLoop_one_round_call ep tm (initialParams q h t)
      (gen.max_tool_rounds - 2)
      (cleanMsgs (initialParams q h t) tm resp 1) (resp 1) 1
      (cleanCalls (initialParams q h t) tm resp 1) [] hexec2
    rw [htail]
    have hrr0 : roundResults tm resp 0 = [] := by
      simp [roundResults, execToolCalls_no_tools tm 1 (resp 0).content hno0]
    have hlen2 : (cleanCalls (initialParams q h t) tm resp 1).length = 2 :=
      cleanCalls_length _ _ _ _
    rw [List.get?_append (by simp [hlen2])]
    rw [← hlen2, List.get?_concat_length]
    simp [cleanMsgs, roundMessages, hrr0, assistantMsg, List.append_assoc]

theorem claim_C10_witness :
    ((generate_response ⟨2⟩ c9ep "q" none (some ["toolA"]) (some c6tm)).2).get? 1
      = some (contParams (initialParams "q" none (some ["toolA"]))
          ((initialParams "q" none (some ["toolA"])).messages
            ++ [assistantMsg (c9resp 0).content]))
    ∧ ((generate_response ⟨2⟩ c9ep "q" none (some ["toolA"]) (some c6tm)).2).get? 2
      = some (contParams (initialParams "q" none (some ["toolA"]))
          ((initialParams "q" none (some ["toolA"])).messages
            ++ [assistantMsg (c9resp 0).content, assistantMsg (c9resp 1).content])) := by
  have hcp : CleanPrefix c9ep c6tm c9resp 1 :=
    ⟨fun i hi => by interval_cases i <;> exact ⟨rfl, by decide, rfl⟩,
     fun i hi => by interval_cases i <;> rfl⟩
  exact ⟨claim_C10_degenerate_round.1 ⟨2⟩ c9ep c6tm "q" none (some ["toolA"])
      (c9resp 0) (by decide) rfl (by decide) rfl rfl,
    claim_C10_degenerate_round.2 ⟨2⟩ c9ep c6tm "q" none (some ["toolA"])
      c9resp (by decide) hcp rfl rfl⟩
